import Mathlib

/-!
Verification of the sequential-request coordinator of the hookify repository:
a shallow embedding of `buildCancelableFetch`, `useLatest` and
`useSequentialRequest` (src/hooks, use-sequential-request), together with
theorems about cancellation, slot management and error propagation.

The embedding follows the source line by line:

* `buildCancelableFetch` creates a fresh `AbortController`; its `cancel` is
  `abortController.abort()`, and its `run()` wraps `requestFn(signal)` in a
  promise whose `.then(resolve)` forwards fulfillment unconditionally and
  whose `.catch` rejects with `new Error("CanceledError")` when
  `abortController.signal.aborted` holds at that moment, and with the
  original error otherwise.
* `useSequentialRequest` keeps a single mutable slot
  (`currentRequest : { cancel } | null`).  Each trigger call first cancels
  the occupant (if any), then builds a fresh cancelable invocation from the
  latest `requestFn` (read through the `useLatest` ref) and installs it, then
  awaits `run()`; in its `finally` it clears the slot only when the slot
  still holds this very invocation.  A mount-scoped effect cancels the slot's
  occupant on unmount.

The coordinator is modelled as a deterministic state machine driven by
external events (a trigger call, the settlement of one invocation's
Operation promise, a swap of the Operation reference, the destruction of the
owning component).  Each event is interpreted as the ordered list of
primitive actions the source performs, and the state transition is the fold
of those actions, so ordering claims can be read off the action lists.
-/

namespace Hookify

variable {T : Type} {α : Type}

/-- A JavaScript `Error` value, as far as this subsystem inspects one: the
constructor name and the message.  The code constructs errors only via
`new Error(...)`, whose name is `"Error"`. -/
structure JsError where
  name : String
  message : String
deriving DecidableEq

/-- Models `new Error(msg)`: a plain `Error` object with the given message. -/
def newError (msg : String) : JsError :=
  { name := "Error", message := msg }

/-- The distinguished cancellation error constructed inside
`buildCancelableFetch`'s catch handler: `new Error("CanceledError")`. -/
def canceledError : JsError :=
  newError "CanceledError"

/-- Settlement of the Operation's own promise (the promise returned by
`requestFn(signal)`). -/
inductive OpOutcome (T : Type) where
  | fulfilled (v : T)
  | rejected (e : JsError)
deriving DecidableEq

/-- Settlement of an external promise handed back to a caller of the
trigger. -/
inductive Outcome (T : Type) where
  | fulfilled (v : T)
  | rejected (e : JsError)
deriving DecidableEq

/-- The state of one `AbortController`'s signal: its `aborted` flag. -/
structure CancelToken where
  aborted : Bool
deriving DecidableEq

/-- Models `abortController.abort()`: sets the `aborted` flag. -/
def CancelToken.abort (t : CancelToken) : CancelToken :=
  { t with aborted := true }

/-- The `cancel` capability returned by `buildCancelableFetch`:
`cancel: () => abortController.abort()`. -/
def cancelFetch (t : CancelToken) : CancelToken :=
  t.abort

/-- The then/catch plumbing of `buildCancelableFetch`'s `run()`, given the
token's `aborted` flag at the moment the Operation's promise settles:
`.then(resolve)` forwards a fulfillment unconditionally, and `.catch`
rejects with `new Error("CanceledError")` when `aborted` holds, otherwise
with the Operation's own error, unchanged. -/
def settleOutcome (ab : Bool) : OpOutcome T → Outcome T
  | .fulfilled v => .fulfilled v
  | .rejected e => if ab then .rejected canceledError else .rejected e

/-- The outcome `run()`'s promise delivers once the Operation's promise has
settled with `o`, where `t` is the controller's signal state at that
moment. -/
def runFetchOutcome (t : CancelToken) (o : OpOutcome T) : Outcome T :=
  settleOutcome t.aborted o

/-- One Cancelable Invocation as the coordinator sees it: the version of the
Operation it captured at creation (`buildCancelableFetch(requestFnRef.current)`
reads the `useLatest` ref exactly once, at trigger time) and its token's
`aborted` flag.  Invocations are identified by their creation index. -/
structure Invocation where
  opId : Nat
  aborted : Bool
deriving DecidableEq

/-- Aborting an invocation's token (its `cancel()`): only the flag changes;
the captured Operation is untouched. -/
def abortInv (inv : Invocation) : Invocation :=
  { inv with aborted := true }

/-- The coordinator's state: the `useLatest` ref's current Operation id, the
Current Invocation Slot (`currentRequest`, holding the id of the occupant's
invocation — the source compares `cancel` function identities, which are in
one-to-one correspondence with invocation ids), the store of all created
invocations (index = id), the settled external promises, and whether the
owning component has been unmounted. -/
structure CoordState (T : Type) where
  opRef : Nat
  slot : Option Nat
  invs : List Invocation
  results : List (Nat × Outcome T)
  destroyed : Bool
deriving DecidableEq

/-- The freshly mounted coordinator: Operation id 0 supplied, empty slot, no
invocations, nothing settled. -/
def initState : CoordState T :=
  { opRef := 0, slot := none, invs := [], results := [], destroyed := false }

/-- Pointwise update of a list at one index (identity out of range). -/
def modifyAt (l : List α) (i : Nat) (f : α → α) : List α :=
  match l, i with
  | [], _ => []
  | a :: t, 0 => f a :: t
  | a :: t, i + 1 => a :: modifyAt t i f

/-- Whether invocation `i`'s cancellation token has been aborted. -/
def invAborted (s : CoordState T) (i : Nat) : Bool :=
  ((s.invs[i]?).map Invocation.aborted).getD false

/-- Lookup of a settled external promise by invocation id. -/
def lookupRes (R : List (Nat × Outcome T)) (i : Nat) : Option (Outcome T) :=
  (R.find? (fun p => p.1 == i)).map (fun p => p.2)

/-- The settlement (if any) of the external promise returned by trigger call
`i`; `none` while that promise is still pending. -/
def resultOf (s : CoordState T) (i : Nat) : Option (Outcome T) :=
  lookupRes s.results i

/-- Primitive actions the source performs, in program order:  aborting an
invocation's token, creating an invocation capturing an Operation, writing
the slot, recording the settlement of an external promise, the `useLatest`
effect updating the Operation ref, and the unmount flag. -/
inductive Action (T : Type) where
  | abortTok (i : Nat)
  | create (opId : Nat)
  | install (i : Nat)
  | clear
  | settleExt (i : Nat) (o : Outcome T)
  | setRef (opId : Nat)
  | markDestroyed
deriving DecidableEq

/-- External events driving the coordinator: a call of the trigger, the
settlement of invocation `i`'s Operation promise (with the outcome the
Operation chose — an Operation may ignore the abort signal entirely, honor
it by rejecting, or even fulfill after being aborted), a re-render supplying
a new Operation reference, and the unmount of the owning component. -/
inductive Event (T : Type) where
  | trigger
  | settleOp (i : Nat) (o : OpOutcome T)
  | setOp (opId : Nat)
  | destroy
deriving DecidableEq

/-- Effect of one primitive action on the state. -/
def applyAction (s : CoordState T) : Action T → CoordState T
  | .abortTok i => { s with invs := modifyAt s.invs i abortInv }
  | .create k => { s with invs := s.invs ++ [{ opId := k, aborted := false }] }
  | .install i => { s with slot := some i }
  | .clear => { s with slot := none }
  | .settleExt i o => { s with results := (i, o) :: s.results }
  | .setRef k => { s with opRef := k }
  | .markDestroyed => { s with destroyed := true }

/-- Actions applied in program order. -/
def applyActs (s : CoordState T) (acts : List (Action T)) : CoordState T :=
  acts.foldl applyAction s

/-- The ordered list of primitive actions the source performs on each event.

* `trigger`: `if (currentRequest.current) currentRequest.current.cancel();`
  then `buildCancelableFetch(requestFnRef.current)` and
  `currentRequest.current = { cancel }` — abort the occupant first, then
  create the new invocation capturing the current Operation ref, then
  install it.
* `settleOp i o`: fires only for an existing invocation whose promise has
  not settled before (a promise settles at most once).  The `finally` clears
  the slot exactly when it still holds this invocation
  (`currentRequest.current?.cancel === cancel`), and the external promise
  settles with the outcome `run()`'s then/catch computed from the token's
  `aborted` flag at this moment.
* `setOp k`: the `useLatest` effect writes `ref.current = value`.
* `destroy`: the mount-scoped effect's cleanup runs exactly once: if the
  slot is occupied it calls the occupant's `cancel()`; it never clears the
  slot. -/
def stepActs (s : CoordState T) : Event T → List (Action T)
  | .trigger =>
      (match s.slot with
        | some j => [.abortTok j]
        | none => []) ++ [.create s.opRef, .install s.invs.length]
  | .settleOp i o =>
      if i < s.invs.length ∧ (resultOf s i).isNone then
        (if s.slot = some i then [.clear] else [])
          ++ [.settleExt i (settleOutcome (invAborted s i) o)]
      else []
  | .setOp k => [.setRef k]
  | .destroy =>
      if s.destroyed then []
      else
        (match s.slot with
          | some j => [.abortTok j]
          | none => []) ++ [.markDestroyed]

/-- One event's full effect on the state: fold its actions in order. -/
def stepC (s : CoordState T) (e : Event T) : CoordState T :=
  applyActs s (stepActs s e)

/-- A whole run of the coordinator from mount, driven by a list of events. -/
def runC (es : List (Event T)) : CoordState T :=
  es.foldl stepC initState

/-- The invocation ids whose tokens a list of actions aborts. -/
def abortsIn (acts : List (Action T)) : List Nat :=
  acts.filterMap (fun a =>
    match a with
    | .abortTok i => some i
    | _ => none)

/-! ### Basic lemmas about the list helpers -/

theorem modifyAt_length (l : List α) (i : Nat) (f : α → α) :
    (modifyAt l i f).length = l.length := by
  induction l generalizing i with
  | nil => rfl
  | cons a t ih =>
      cases i with
      | zero => rfl
      | succ n => simp [modifyAt, ih]

theorem getElem?_modifyAt_self (l : List α) (i : Nat) (f : α → α) :
    (modifyAt l i f)[i]? = (l[i]?).map f := by
  induction l generalizing i with
  | nil => simp [modifyAt]
  | cons a t ih =>
      cases i with
      | zero => simp [modifyAt]
      | succ n => simp [modifyAt, ih]

theorem getElem?_modifyAt_ne (l : List α) (i j : Nat) (f : α → α) (h : j ≠ i) :
    (modifyAt l i f)[j]? = l[j]? := by
  induction l generalizing i j with
  | nil => simp [modifyAt]
  | cons a t ih =>
      cases i with
      | zero =>
          cases j with
          | zero => exact absurd rfl h
          | succ m => simp [modifyAt]
      | succ n =>
          cases j with
          | zero => simp [modifyAt]
          | succ m =>
              simp only [modifyAt, List.getElem?_cons_succ]
              exact ih n m (by omega)

theorem modifyAt_append_length (l : List α) (a : α) (f : α → α) :
    modifyAt (l ++ [a]) l.length f = l ++ [f a] := by
  induction l with
  | nil => rfl
  | cons b t ih => simp [modifyAt, ih]

theorem modifyAt_replicate_append (x a : α) (m : Nat) (f : α → α) :
    modifyAt (List.replicate m x ++ [a]) m f = List.replicate m x ++ [f a] := by
  have h := modifyAt_append_length (List.replicate m x) a f
  simpa using h

theorem map_opId_modifyAt (l : List Invocation) (i : Nat) :
    (modifyAt l i abortInv).map Invocation.opId = l.map Invocation.opId := by
  induction l generalizing i with
  | nil => rfl
  | cons a t ih =>
      cases i with
      | zero => simp [modifyAt, abortInv]
      | succ n => simp [modifyAt, ih]

theorem lookupRes_cons_self (R : List (Nat × Outcome T)) (i : Nat) (o : Outcome T) :
    lookupRes ((i, o) :: R) i = some o := by
  simp [lookupRes, List.find?]

theorem lookupRes_cons_ne (R : List (Nat × Outcome T)) (i j : Nat) (o : Outcome T)
    (h : j ≠ i) :
    lookupRes ((j, o) :: R) i = lookupRes R i := by
  have hb : (j == i) = false := by simpa using h
  simp [lookupRes, List.find?, hb]

/-! ### Characterizations of the four event transitions -/

theorem stepC_trigger_none (s : CoordState T) (h : s.slot = none) :
    stepC s .trigger =
      { s with invs := s.invs ++ [{ opId := s.opRef, aborted := false }],
               slot := some s.invs.length } := by
  simp [stepC, stepActs, h, applyActs, applyAction]

theorem stepC_trigger_some (s : CoordState T) (j : Nat) (h : s.slot = some j) :
    stepC s .trigger =
      { s with invs := modifyAt s.invs j abortInv ++ [{ opId := s.opRef, aborted := false }],
               slot := some s.invs.length } := by
  simp [stepC, stepActs, h, applyActs, applyAction]

theorem stepC_setOp (s : CoordState T) (k : Nat) :
    stepC s (.setOp k) = { s with opRef := k } := rfl

theorem stepC_settle (s : CoordState T) (i : Nat) (o : OpOutcome T)
    (h1 : i < s.invs.length) (h2 : resultOf s i = none) :
    stepC s (.settleOp i o) =
      { s with slot := if s.slot = some i then none else s.slot,
               results := (i, settleOutcome (invAborted s i) o) :: s.results } := by
  by_cases hs : s.slot = some i <;>
    simp [stepC, stepActs, applyActs, applyAction, h1, h2, hs]

theorem stepC_settle_stuck (s : CoordState T) (i : Nat) (o : OpOutcome T)
    (h : ¬(i < s.invs.length ∧ (resultOf s i).isNone = true)) :
    stepC s (.settleOp i o) = s := by
  show applyActs s (stepActs s (.settleOp i o)) = s
  simp only [stepActs]
  rw [if_neg h]
  rfl

theorem stepC_destroy_done (s : CoordState T) (h : s.destroyed = true) :
    stepC s .destroy = s := by
  simp [stepC, stepActs, h, applyActs]

theorem stepC_destroy_none (s : CoordState T) (h0 : s.destroyed = false)
    (h : s.slot = none) :
    stepC s .destroy = { s with destroyed := true } := by
  simp [stepC, stepActs, h0, h, applyActs, applyAction]

theorem stepC_destroy_some (s : CoordState T) (j : Nat) (h0 : s.destroyed = false)
    (h : s.slot = some j) :
    stepC s .destroy = { s with invs := modifyAt s.invs j abortInv, destroyed := true } := by
  simp [stepC, stepActs, h0, h, applyActs, applyAction]

theorem results_stepC_trigger (s : CoordState T) :
    (stepC s .trigger).results = s.results := by
  cases h : s.slot with
  | none => rw [stepC_trigger_none s h]
  | some j => rw [stepC_trigger_some s j h]

theorem results_stepC_destroy (s : CoordState T) :
    (stepC s .destroy).results = s.results := by
  cases h0 : s.destroyed with
  | true => rw [stepC_destroy_done s h0]
  | false =>
      cases h : s.slot with
      | none => rw [stepC_destroy_none s h0 h]
      | some j => rw [stepC_destroy_some s j h0 h]

theorem resultOf_stepC_settle_ne (s : CoordState T) (i j : Nat) (o : OpOutcome T)
    (h : j ≠ i) :
    resultOf (stepC s (.settleOp j o)) i = resultOf s i := by
  by_cases hg : j < s.invs.length ∧ (resultOf s j).isNone = true
  · rw [stepC_settle s j o hg.1 (Option.isNone_iff_eq_none.mp hg.2)]
    show lookupRes ((j, _) :: s.results) i = _
    rw [lookupRes_cons_ne s.results i j _ h]
    rfl
  · rw [stepC_settle_stuck s j o hg]

theorem resultOf_stepC_settle_self (s : CoordState T) (i : Nat) (o : OpOutcome T)
    (h1 : i < s.invs.length) (h2 : resultOf s i = none) :
    resultOf (stepC s (.settleOp i o)) i = some (settleOutcome (invAborted s i) o) := by
  rw [stepC_settle s i o h1 h2]
  show lookupRes ((i, _) :: s.results) i = _
  rw [lookupRes_cons_self]

theorem slot_stepC_settle (s : CoordState T) (i : Nat) (o : OpOutcome T)
    (h1 : i < s.invs.length) (h2 : resultOf s i = none) :
    (stepC s (.settleOp i o)).slot = if s.slot = some i then none else s.slot := by
  rw [stepC_settle s i o h1 h2]

/-! ### The slot always points to a created invocation -/

/-- The Current Invocation Slot only ever holds the id of an invocation that
was actually created. -/
def SlotOk (s : CoordState T) : Prop :=
  ∀ j, s.slot = some j → j < s.invs.length

theorem slotOk_stepC (s : CoordState T) (e : Event T) (hs : SlotOk s) :
    SlotOk (stepC s e) := by
  cases e with
  | trigger =>
      cases h : s.slot with
      | none =>
          rw [stepC_trigger_none s h]
          intro j hj
          simp only [Option.some.injEq] at hj
          subst hj
          simp
      | some k =>
          rw [stepC_trigger_some s k h]
          intro j hj
          simp only [Option.some.injEq] at hj
          subst hj
          simp [modifyAt_length]
  | settleOp i o =>
      by_cases hg : i < s.invs.length ∧ (resultOf s i).isNone = true
      · rw [stepC_settle s i o hg.1 (Option.isNone_iff_eq_none.mp hg.2)]
        intro j hj
        by_cases hsl : s.slot = some i
        · simp [hsl] at hj
        · simp only [if_neg hsl] at hj
          exact hs j hj
      · rw [stepC_settle_stuck s i o hg]
        exact hs
  | setOp k =>
      rw [stepC_setOp]
      intro j hj
      exact hs j hj
  | destroy =>
      cases h0 : s.destroyed with
      | true =>
          rw [stepC_destroy_done s h0]
          exact hs
      | false =>
          cases h : s.slot with
          | none =>
              rw [stepC_destroy_none s h0 h]
              intro j hj
              exact hs j hj
          | some k =>
              rw [stepC_destroy_some s k h0 h]
              intro j hj
              rw [modifyAt_length]
              exact hs j hj

theorem slotOk_foldl (es : List (Event T)) :
    ∀ s : CoordState T, SlotOk s → SlotOk (es.foldl stepC s) := by
  induction es with
  | nil => intro s hs; exact hs
  | cons e t ih => intro s hs; exact ih (stepC s e) (slotOk_stepC s e hs)

theorem slotOk_runC (es : List (Event T)) : SlotOk (runC es) := by
  refine slotOk_foldl es initState ?_
  intro j hj
  simp [initState] at hj

/-! ### The state after a burst of trigger calls -/

theorem runC_triggers (n : Nat) :
    runC (List.replicate (n + 1) (Event.trigger : Event T)) =
      { opRef := 0, slot := some n,
        invs := List.replicate n { opId := 0, aborted := true }
                  ++ [{ opId := 0, aborted := false }],
        results := [], destroyed := false } := by
  induction n with
  | zero => rfl
  | succ m ih =>
      have hrep : List.replicate (m + 1 + 1) (Event.trigger : Event T)
          = List.replicate (m + 1) Event.trigger ++ [Event.trigger] :=
        List.replicate_succ' (m + 1) Event.trigger
      rw [runC, hrep, List.foldl_append]
      have hrun : List.foldl stepC initState (List.replicate (m + 1) (Event.trigger : Event T))
          = runC (List.replicate (m + 1) Event.trigger) := rfl
      rw [hrun, ih]
      simp only [List.foldl_cons, List.foldl_nil]
      rw [stepC_trigger_some _ m rfl]
      simp [modifyAt_replicate_append, abortInv, List.replicate_succ']

/-! ### Claim theorems -/

/-- C1 counterexample: the claim that a canceled invocation's external promise
rejects with the cancellation error "regardless of whether the Operation's own
promise later fulfills with a value" is false on the code.  After two
back-to-back trigger calls, invocation 0 has been canceled and its external
promise is still pending; when its Operation then fulfills with 42 (an
Operation that ignores the abort signal), `run()`'s `.then(resolve)` fires and
the external promise fulfills with 42 — it does not reject with the
cancellation error. -/
theorem canceled_then_fulfilled_fulfills_cex :
    invAborted (runC [Event.trigger (T := Nat), .trigger]) 0 = true
      ∧ resultOf (runC [Event.trigger (T := Nat), .trigger]) 0 = none
      ∧ resultOf (runC [Event.trigger (T := Nat), .trigger, .settleOp 0 (.fulfilled 42)]) 0
          = some (.fulfilled 42)
      ∧ resultOf (runC [Event.trigger (T := Nat), .trigger, .settleOp 0 (.fulfilled 42)]) 0
          ≠ some (.rejected canceledError) := by
  decide

/-- C1 amended: for every invocation whose `cancel()` was invoked before its
external promise settles, if the Operation's own promise rejects (for any
reason), the external promise rejects with the distinguished cancellation
error; if the Operation's promise fulfills despite the cancellation, the
external promise fulfills with that value.  Cancellation takes precedence
only over the Operation's rejection reason, not over fulfillment. -/
theorem canceled_settle_amended (s : CoordState T) (i : Nat) (v : T) (e : JsError)
    (h1 : i < s.invs.length) (h2 : resultOf s i = none) (h3 : invAborted s i = true) :
    resultOf (stepC s (.settleOp i (.rejected e))) i = some (.rejected canceledError)
      ∧ resultOf (stepC s (.settleOp i (.fulfilled v))) i = some (.fulfilled v) := by
  constructor
  · rw [resultOf_stepC_settle_self s i _ h1 h2]
    simp [settleOutcome, h3]
  · rw [resultOf_stepC_settle_self s i _ h1 h2]
    simp [settleOutcome]

theorem canceled_settle_amended_witness :
    0 < (runC [Event.trigger (T := Nat), .trigger]).invs.length
      ∧ resultOf (runC [Event.trigger (T := Nat), .trigger]) 0 = none
      ∧ invAborted (runC [Event.trigger (T := Nat), .trigger]) 0 = true
      ∧ resultOf (stepC (runC [Event.trigger (T := Nat), .trigger])
            (.settleOp 0 (.rejected (newError "boom")))) 0
          = some (.rejected canceledError) :=
  ⟨by decide, by decide, by decide,
    (canceled_settle_amended (runC [Event.trigger (T := Nat), .trigger]) 0 7
      (newError "boom") (by decide) (by decide) (by decide)).1⟩

/-- C2 counterexample: after two trigger calls issued before any settlement,
the last call's invocation indeed occupies the slot and the first call's
invocation has been canceled, but the first call's promise has NOT rejected
with the cancellation error: it is still pending, because `cancel()` only sets
the abort flag — the rejection can only be delivered once the Operation's own
promise settles. -/
theorem superseded_pending_no_rejection_cex :
    (runC [Event.trigger (T := Nat), .trigger]).slot = some 1
      ∧ invAborted (runC [Event.trigger (T := Nat), .trigger]) 0 = true
      ∧ resultOf (runC [Event.trigger (T := Nat), .trigger]) 0 = none
      ∧ resultOf (runC [Event.trigger (T := Nat), .trigger]) 0
          ≠ some (.rejected canceledError) := by
  decide

/-- C2 amended: for every sequence of N trigger calls (N ≥ 1) all issued
before any of their invocations has settled, exactly the last call's
invocation occupies the Current Invocation Slot once the cancellations have
been processed, every earlier call's token is aborted and the last one's is
not; and each of the first N-1 calls' promises rejects with the cancellation
error as soon as — and only if — that call's Operation promise rejects after
the cancellation (e.g. because it honors the abort signal). -/
theorem at_most_one_live_amended (n : Nat) (hn : 1 ≤ n) :
    (runC (List.replicate n (Event.trigger : Event T))).slot = some (n - 1)
      ∧ (runC (List.replicate n (Event.trigger : Event T))).invs.length = n
      ∧ (∀ i, i < n - 1 →
          invAborted (runC (List.replicate n (Event.trigger : Event T))) i = true)
      ∧ invAborted (runC (List.replicate n (Event.trigger : Event T))) (n - 1) = false
      ∧ ∀ i e, i < n - 1 →
          resultOf (stepC (runC (List.replicate n (Event.trigger : Event T)))
              (.settleOp i (.rejected e))) i = some (.rejected canceledError) := by
  obtain ⟨m, rfl⟩ : ∃ m, n = m + 1 := ⟨n - 1, by omega⟩
  rw [runC_triggers m]
  simp only [Nat.add_sub_cancel]
  have habm : ∀ i, i < m →
      invAborted (T := T)
        { opRef := 0, slot := some m,
          invs := List.replicate m { opId := 0, aborted := true }
                    ++ [{ opId := 0, aborted := false }],
          results := [], destroyed := false } i = true := by
    intro i hi
    have hlen : i < (List.replicate m
        ({ opId := 0, aborted := true } : Invocation)).length := by
      rw [List.length_replicate]; exact hi
    simp [invAborted, List.getElem?_append_left hlen, List.getElem?_replicate, hi]
  refine ⟨by simp, by simp, habm, ?_, ?_⟩
  · have hlast : (List.replicate m ({ opId := 0, aborted := true } : Invocation)
        ++ [{ opId := 0, aborted := false }])[m]?
        = some { opId := 0, aborted := false } := by
      have h := List.getElem?_concat_length
        (List.replicate m ({ opId := 0, aborted := true } : Invocation))
        ({ opId := 0, aborted := false } : Invocation)
      rw [List.length_replicate] at h
      exact h
    simp [invAborted, hlast]
  · intro i e hi
    rw [resultOf_stepC_settle_self]
    · rw [habm i hi]
      simp [settleOutcome]
    · simp
      omega
    · simp [resultOf, lookupRes]

theorem at_most_one_live_amended_witness :
    1 ≤ 2
      ∧ (runC (List.replicate 2 (Event.trigger : Event Nat))).slot = some 1
      ∧ resultOf (stepC (runC (List.replicate 2 (Event.trigger : Event Nat)))
            (.settleOp 0 (.rejected (newError "aborted")))) 0
          = some (.rejected canceledError) :=
  ⟨by decide, (at_most_one_live_amended 2 (by decide)).1,
    (at_most_one_live_amended 2 (by decide)).2.2.2.2 0 (newError "aborted") (by decide)⟩

/-- C3: for every trigger call whose invocation was not canceled (its token's
aborted flag is still false when the Operation's promise settles), if the
Operation's promise rejects with some error `e`, the external promise rejects
with exactly the same error value `e`, not wrapped or replaced: the catch
handler re-raises the original error when `abortController.signal.aborted` is
false. -/
theorem op_error_propagated_verbatim (s : CoordState T) (i : Nat) (e : JsError)
    (h1 : i < s.invs.length) (h2 : resultOf s i = none) (h3 : invAborted s i = false) :
    resultOf (stepC s (.settleOp i (.rejected e))) i = some (.rejected e) := by
  rw [resultOf_stepC_settle_self s i _ h1 h2]
  simp [settleOutcome, h3]

theorem op_error_propagated_verbatim_witness :
    0 < (runC [Event.trigger (T := Nat)]).invs.length
      ∧ resultOf (runC [Event.trigger (T := Nat)]) 0 = none
      ∧ invAborted (runC [Event.trigger (T := Nat)]) 0 = false
      ∧ resultOf (stepC (runC [Event.trigger (T := Nat)])
            (.settleOp 0 (.rejected { name := "TypeError", message := "network down" }))) 0
          = some (.rejected { name := "TypeError", message := "network down" }) :=
  ⟨by decide, by decide, by decide,
    op_error_propagated_verbatim (runC [Event.trigger (T := Nat)]) 0
      { name := "TypeError", message := "network down" } (by decide) (by decide) (by decide)⟩

/-- C4: when an invocation's external promise settles, the `finally` block
clears the Current Invocation Slot exactly when the slot still points at that
same invocation (`currentRequest.current?.cancel === cancel`); if the slot has
since been replaced by a newer invocation (or already emptied), it is left
unchanged — the newer occupant is not removed. -/
theorem settlement_clears_or_leaves_slot (s : CoordState T) (i : Nat) (o : OpOutcome T)
    (h1 : i < s.invs.length) (h2 : resultOf s i = none) :
    (s.slot = some i → (stepC s (.settleOp i o)).slot = none)
      ∧ (s.slot ≠ some i → (stepC s (.settleOp i o)).slot = s.slot) := by
  constructor <;> intro h <;> rw [slot_stepC_settle s i o h1 h2] <;> simp [h]

theorem settlement_clears_or_leaves_slot_witness :
    (runC [Event.trigger (T := Nat)]).slot = some 0
      ∧ (stepC (runC [Event.trigger (T := Nat)]) (.settleOp 0 (.fulfilled 5))).slot = none
      ∧ (runC [Event.trigger (T := Nat), .trigger]).slot = some 1
      ∧ (stepC (runC [Event.trigger (T := Nat), .trigger])
            (.settleOp 0 (.fulfilled 5))).slot = some 1 := by
  refine ⟨by decide, ?_, by decide, ?_⟩
  · exact (settlement_clears_or_leaves_slot (runC [Event.trigger (T := Nat)]) 0
      (.fulfilled 5) (by decide) (by decide)).1 (by decide)
  · have h := (settlement_clears_or_leaves_slot (runC [Event.trigger (T := Nat), .trigger]) 0
      (.fulfilled 5) (by decide) (by decide)).2 (by decide)
    rw [h]
    decide

/-- C5: when the owning component is unmounted (the mount-scoped effect's
cleanup runs, which the framework guarantees happens exactly once, modelled by
the `destroyed` flag), an occupant of the slot has its cancellation token
aborted exactly once — the teardown's action list contains exactly one abort,
of exactly that invocation; with an empty slot the teardown aborts nothing. -/
theorem destroy_aborts_occupant_exactly_once (s : CoordState T) (j : Nat)
    (h0 : s.destroyed = false) :
    (s.slot = some j →
        stepActs s .destroy = [.abortTok j, .markDestroyed]
          ∧ abortsIn (stepActs s .destroy) = [j])
      ∧ (s.slot = none →
          stepActs s .destroy = [.markDestroyed]
            ∧ abortsIn (stepActs s .destroy) = []) := by
  constructor <;> intro h <;> refine ⟨by simp [stepActs, h0, h], ?_⟩ <;>
    simp [stepActs, h0, h, abortsIn]

theorem destroy_aborts_occupant_exactly_once_witness :
    (runC [Event.trigger (T := Nat)]).destroyed = false
      ∧ (runC [Event.trigger (T := Nat)]).slot = some 0
      ∧ stepActs (runC [Event.trigger (T := Nat)]) .destroy
          = [.abortTok 0, .markDestroyed]
      ∧ abortsIn (stepActs (runC [Event.trigger (T := Nat)]) .destroy) = [0] :=
  ⟨by decide, by decide,
    ((destroy_aborts_occupant_exactly_once (runC [Event.trigger (T := Nat)]) 0
        (by decide)).1 (by decide)).1,
    ((destroy_aborts_occupant_exactly_once (runC [Event.trigger (T := Nat)]) 0
        (by decide)).1 (by decide)).2⟩

/-- C6: swapping the Operation reference is non-interfering with in-flight
invocations.  (1) The `useLatest` effect writing a new Operation reference
changes only the ref cell — slot, invocations and settled results are
untouched.  (2) A trigger call made after the swap creates an invocation
capturing the newest Operation, while every existing invocation keeps the
Operation id it captured at its creation (`buildCancelableFetch` snapshots
`requestFnRef.current` once, at trigger time).  (3) The settlement of any
in-flight invocation is independent of the current Operation reference: the
step commutes with the ref change, so two runs differing only in the
reference supplied after an invocation started behave identically for that
invocation. -/
theorem op_swap_non_interference (s : CoordState T) (k i : Nat) (o : OpOutcome T) :
    stepC s (.setOp k) = { s with opRef := k }
      ∧ (stepC { s with opRef := k } .trigger).invs.map Invocation.opId
          = s.invs.map Invocation.opId ++ [k]
      ∧ stepC { s with opRef := k } (.settleOp i o)
          = { stepC s (.settleOp i o) with opRef := k } := by
  refine ⟨rfl, ?_, ?_⟩
  · cases h : s.slot with
    | none => simp [stepC, stepActs, applyActs, applyAction, h]
    | some j => simp [stepC, stepActs, applyActs, applyAction, h, map_opId_modifyAt]
  · by_cases hg : i < s.invs.length ∧ (resultOf s i).isNone = true
    · have h2 := Option.isNone_iff_eq_none.mp hg.2
      rw [stepC_settle { s with opRef := k } i o hg.1 h2,
        stepC_settle s i o hg.1 h2]
      by_cases hsl : s.slot = some i <;> simp [hsl, invAborted]
    · rw [stepC_settle_stuck { s with opRef := k } i o hg,
        stepC_settle_stuck s i o hg]

/-- C7: on a trigger call with an occupied slot, the source performs, in this
order: abort the occupant's token, create the new invocation, install it —
the occupant's `cancel()` runs synchronously and strictly before the new
invocation is installed.  Consequently, at every intermediate point of the
trigger's action sequence, whenever the slot holds the new invocation the old
occupant's token is already aborted; and since the slot is a single reference,
no state ever has two invocations installed as current. -/
theorem cancel_precedes_install (es : List (Event T)) (j : Nat)
    (h : (runC es).slot = some j) :
    stepActs (runC es) .trigger
        = [.abortTok j, .create (runC es).opRef, .install (runC es).invs.length]
      ∧ ∀ m : Nat,
          (applyActs (runC es) ((stepActs (runC es) Event.trigger).take m)).slot
              = some ((runC es).invs.length)
            → invAborted (applyActs (runC es) ((stepActs (runC es) Event.trigger).take m)) j
                = true := by
  have hlt : j < (runC es).invs.length := slotOk_runC es j h
  have hacts : stepActs (runC es) Event.trigger
      = [.abortTok j, .create (runC es).opRef, .install (runC es).invs.length] := by
    simp [stepActs, h]
  refine ⟨hacts, ?_⟩
  intro m hm
  rw [hacts] at hm ⊢
  match m with
  | 0 =>
      exfalso
      simp [applyActs, h] at hm
      omega
  | 1 =>
      exfalso
      simp [applyActs, applyAction, h, List.take] at hm
      omega
  | 2 =>
      exfalso
      simp [applyActs, applyAction, h, List.take] at hm
      omega
  | (m + 3) =>
      have htake : ([Action.abortTok j, .create (runC es).opRef,
          .install (runC es).invs.length] : List (Action T)).take (m + 3)
          = [Action.abortTok j, .create (runC es).opRef,
              .install (runC es).invs.length] := by
        simp [List.take]
      rw [htake]
      simp only [applyActs, List.foldl_cons, List.foldl_nil, applyAction, invAborted]
      rw [List.getElem?_append_left (by rw [modifyAt_length]; exact hlt),
        getElem?_modifyAt_self, List.getElem?_eq_getElem hlt]
      simp [abortInv]

theorem cancel_precedes_install_witness :
    (runC [Event.trigger (T := Nat)]).slot = some 0
      ∧ stepActs (runC [Event.trigger (T := Nat)]) .trigger
          = [.abortTok 0, .create 0, .install 1]
      ∧ invAborted (applyActs (runC [Event.trigger (T := Nat)])
            ((stepActs (runC [Event.trigger (T := Nat)]) Event.trigger).take 3)) 0
          = true := by
  refine ⟨by decide, ?_, ?_⟩
  · have h := (cancel_precedes_install [Event.trigger (T := Nat)] 0 (by decide)).1
    rw [h]
    decide
  · exact (cancel_precedes_install [Event.trigger (T := Nat)] 0 (by decide)).2 3 (by decide)

/-- C8: `cancel()` is idempotent.  Calling it n ≥ 1 times leaves the
cancellation token in exactly the state one call leaves it in
(`abortController.abort()` just sets the aborted flag), and therefore the
external promise outcome computed by `run()`'s then/catch from the token
state is also identical. -/
theorem cancel_idempotent (t : CancelToken) (n : Nat) (o : OpOutcome T) (h : 1 ≤ n) :
    cancelFetch^[n] t = cancelFetch t
      ∧ runFetchOutcome (cancelFetch^[n] t) o = runFetchOutcome (cancelFetch t) o := by
  obtain ⟨m, rfl⟩ : ∃ m, n = m + 1 := ⟨n - 1, by omega⟩
  clear h
  have key : ∀ u : CancelToken, cancelFetch^[m + 1] u = cancelFetch u := by
    induction m with
    | zero => intro u; rfl
    | succ p ih =>
        intro u
        rw [Function.iterate_succ_apply, ih (cancelFetch u)]
        rfl
  exact ⟨key t, by rw [key t]⟩

theorem cancel_idempotent_witness :
    1 ≤ 3
      ∧ cancelFetch^[3] { aborted := false } = cancelFetch { aborted := false }
      ∧ runFetchOutcome (cancelFetch^[3] { aborted := false })
            (OpOutcome.rejected (T := Nat) (newError "x"))
          = runFetchOutcome (cancelFetch { aborted := false })
              (OpOutcome.rejected (newError "x")) :=
  ⟨by decide,
    (cancel_idempotent { aborted := false } 3
      (OpOutcome.rejected (T := Nat) (newError "x")) (by decide)).1,
    (cancel_idempotent { aborted := false } 3
      (OpOutcome.rejected (T := Nat) (newError "x")) (by decide)).2⟩

/-- C9: canceling an invocation does not by itself settle its external
promise.  The promise returned by `run()` settles only inside the then/catch
of the Operation's own promise, so in any run whose events never settle
invocation i's Operation promise, invocation i's external promise never
settles — it neither fulfills nor rejects, no matter how many cancellations
(trigger supersessions or unmounts) occur. -/
theorem cancel_does_not_settle (es : List (Event T)) (i : Nat)
    (h : ∀ o : OpOutcome T, Event.settleOp i o ∉ es) :
    resultOf (runC es) i = none := by
  suffices haux : ∀ s : CoordState T, resultOf s i = none →
      (∀ o : OpOutcome T, Event.settleOp i o ∉ es) →
      resultOf (es.foldl stepC s) i = none by
    exact haux initState rfl h
  clear h
  induction es with
  | nil => intro s hs _; exact hs
  | cons e t ih =>
      intro s hs hmem
      simp only [List.foldl_cons]
      refine ih (stepC s e) ?_ (fun o ho => hmem o (List.mem_cons_of_mem _ ho))
      cases e with
      | trigger =>
          show lookupRes (stepC s .trigger).results i = none
          rw [results_stepC_trigger]
          exact hs
      | setOp k => exact hs
      | destroy =>
          show lookupRes (stepC s .destroy).results i = none
          rw [results_stepC_destroy]
          exact hs
      | settleOp j o =>
          have hj : j ≠ i := by
            intro hji
            subst hji
            exact hmem o (List.mem_cons_self _ _)
          rw [resultOf_stepC_settle_ne s i j o hj]
          exact hs

theorem cancel_does_not_settle_witness :
    invAborted (runC [Event.trigger (T := Nat), .trigger]) 0 = true
      ∧ resultOf (runC [Event.trigger (T := Nat), .trigger]) 0 = none :=
  ⟨by decide,
    cancel_does_not_settle [Event.trigger, .trigger] 0 (by intro o; simp)⟩

/-- C10: every cancellation rejection delivered to a trigger call's promise
is the value of `new Error("CanceledError")`: a plain `Error` (constructor
name "Error", not a dedicated error class) whose message is exactly the
string "CanceledError", and carrying no other distinguishing field — so
callers can tell cancellation apart from Operation errors only by comparing
that message string. -/
theorem cancellation_error_is_plain_error (s : CoordState T) (i : Nat) (e : JsError)
    (h1 : i < s.invs.length) (h2 : resultOf s i = none) (h3 : invAborted s i = true) :
    resultOf (stepC s (.settleOp i (.rejected e))) i
        = some (.rejected (newError "CanceledError"))
      ∧ canceledError = { name := "Error", message := "CanceledError" } := by
  refine ⟨?_, rfl⟩
  rw [resultOf_stepC_settle_self s i _ h1 h2]
  simp [settleOutcome, h3, canceledError]

theorem cancellation_error_is_plain_error_witness :
    0 < (runC [Event.trigger (T := Nat), .trigger]).invs.length
      ∧ resultOf (runC [Event.trigger (T := Nat), .trigger]) 0 = none
      ∧ invAborted (runC [Event.trigger (T := Nat), .trigger]) 0 = true
      ∧ resultOf (stepC (runC [Event.trigger (T := Nat), .trigger])
            (.settleOp 0 (.rejected { name := "DOMException", message := "AbortError" }))) 0
          = some (.rejected (newError "CanceledError")) :=
  ⟨by decide, by decide, by decide,
    (cancellation_error_is_plain_error (runC [Event.trigger (T := Nat), .trigger]) 0
      { name := "DOMException", message := "AbortError" }
      (by decide) (by decide) (by decide)).1⟩

end Hookify
